import Mathlib

/-!
Shallow embedding of the polymarket-copy-trading discovery and grading
pipeline: the trade scanner (main.py), the wallet grader (grade_users.py)
and the scoring/filtering batch (process_grades.py). Machine floats are
modelled as rationals; HTTP traffic is modelled by the list of successive
responses the server would give; file persistence is modelled as explicit
state passing.
-/

namespace Poly

/-! ### main.py - trade scanner -/

/-- FETCH_LIMIT = 500, the Data-API maximum (main.py line 20). -/
def FETCH_LIMIT : Nat := 500

/-- A trade record as consumed by the scanner: its timestamp and its
optional proxyWallet field (main.py lines 65, 76). -/
structure Trade where
  timestamp : Int
  proxyWallet : Option String
deriving DecidableEq, Repr

/-- Placeholder trade used as the getLastD default; the scanner only reads
the last element of a nonempty batch, where the default is irrelevant. -/
def dTrade : Trade := ⟨0, none⟩

/-- One HTTP response to a page request: the decoded JSON batch on status
200, otherwise the error status code (main.py lines 56-60). -/
inductive Resp where
  | ok (batch : List Trade)
  | err (code : Nat)
deriving DecidableEq, Repr

/-- The staleness filter of fetch_trades_since (main.py line 65): keep only
trades whose timestamp is strictly greater than the checkpoint. -/
def freshFilter (since : Int) (batch : List Trade) : List Trade :=
  batch.filter (fun t => decide (since < t.timestamp))

/-- oldest_in_batch = batch[-1].timestamp (main.py line 68). -/
def oldestTs (batch : List Trade) : Int :=
  (batch.getLastD dTrade).timestamp

/-- fetch_trades_since (main.py lines 51-73), driven by the list of
successive HTTP responses; returns the accumulated fresh trades together
with the number of page requests issued. A non-200 response breaks out of
the loop keeping what was accumulated so far; an empty batch breaks; a
batch whose oldest trade is not newer than the checkpoint, or which is
shorter than FETCH_LIMIT, is the final page. -/
def fetch_trades_since (since : Int) : List Resp → List Trade × Nat
  | [] => ([], 0)
  | .err _ :: _ => ([], 1)
  | .ok [] :: _ => ([], 1)
  | .ok (t :: ts) :: rest =>
    if oldestTs (t :: ts) ≤ since ∨ (t :: ts).length < FETCH_LIMIT then
      (freshFilter since (t :: ts), 1)
    else
      ((freshFilter since (t :: ts)) ++ (fetch_trades_since since rest).1,
        (fetch_trades_since since rest).2 + 1)

/-- extract_addresses (main.py lines 75-76): the set of proxyWallet values
of the trades that carry one. -/
def extract_addresses (trades : List Trade) : Finset String :=
  (trades.filterMap Trade.proxyWallet).toFinset

/-- The persistent state of the scanner: the contents of seen_users.txt and
of last_check.txt. -/
structure JobState where
  seenUsers : Finset String
  lastTs : Int
deriving DecidableEq

/-- One run of job() (main.py lines 79-96): the state persisted when the
run completes, given the response feed and the wall-clock time read at
line 96. seen_users.txt is rewritten only when new addresses were found;
last_check.txt is rewritten unconditionally with the completion time. -/
def job (st : JobState) (resps : List Resp) (now : Int) : JobState :=
  let new_trades := (fetch_trades_since st.lastTs resps).1
  let new_addrs := extract_addresses new_trades \ st.seenUsers
  { seenUsers := if new_addrs = ∅ then st.seenUsers else st.seenUsers ∪ new_addrs
    lastTs := now }

/-- A sequence of scheduled runs: each entry is the response feed that run
sees and the wall-clock time at which it completes. -/
def runJobs (st : JobState) : List (List Resp × Int) → JobState
  | [] => st
  | (resps, now) :: more => runJobs (job st resps now) more

/-- The wall clock is monotone along a sequence of runs: each run completes
no earlier than the timestamp currently persisted. -/
def clockOK : Int → List (List Resp × Int) → Bool
  | _, [] => true
  | t, (_, now) :: more => decide (t ≤ now) && clockOK now more

/-- A page is full when it has exactly FETCH_LIMIT records and its oldest
record is strictly newer than the checkpoint (the loop keeps paging). -/
def fullFresh (since : Int) : Resp → Bool
  | .ok batch => decide (batch.length = FETCH_LIMIT) && decide (since < oldestTs batch)
  | .err _ => false

/-- A short page: a 200 response with fewer than FETCH_LIMIT records. -/
def isShortPage : Resp → Bool
  | .ok batch => decide (batch.length < FETCH_LIMIT)
  | .err _ => false

/-! ### process_grades.py - scoring and filtering -/

/-- Round-half-to-even to an integer, the rounding mode of the builtin
round() on a real value (floats are idealised as rationals). -/
def roundHalfEven (x : ℚ) : ℤ :=
  if x - ⌊x⌋ < 1 / 2 then ⌊x⌋
  else if 1 / 2 < x - ⌊x⌋ then ⌊x⌋ + 1
  else if ⌊x⌋ % 2 = 0 then ⌊x⌋ else ⌊x⌋ + 1

/-- round(x, n): round-half-to-even at n decimal places. -/
def pyRound (n : Nat) (x : ℚ) : ℚ :=
  (roundHalfEven (10 ^ n * x) : ℚ) / 10 ^ n

/-- The metrics dict as consumed by score_user: pnl, win_rate, volume and
the roi entry (process_grades.py lines 4-8; roi is always present at the
one call site, process_grades.py line 18). -/
structure Metrics where
  pnl : ℚ
  win_rate : ℚ
  volume : ℚ
  roi : ℚ
deriving DecidableEq, Repr

/-- score_user (process_grades.py lines 4-9): clamp pnl/10000 to [0,1],
cap volume/100000 at 1 from above only, weight 0.4/0.3/0.2/0.1 with the
raw win rate and the raw roi, scale by 100 and round to one decimal. -/
def score_user (m : Metrics) : ℚ :=
  let pnl_score := min 1 (max 0 (m.pnl / 10000))
  let win_rate_score := m.win_rate
  let volume_score := min 1 (m.volume / 100000)
  let roi := m.roi
  pyRound 1 (100 * (0.4 * pnl_score + 0.3 * win_rate_score
    + 0.2 * volume_score + 0.1 * roi))

/-- Modelled from the spec words of claim C3 only, for comparison with
score_user: the Variant B formula with volume_score clamped to [0,1] on
both sides. -/
def score_claimB (m : Metrics) : ℚ :=
  let pnl_score := min 1 (max 0 (m.pnl / 10000))
  let win_rate_score := m.win_rate
  let volume_score := min 1 (max 0 (m.volume / 100000))
  let roi := m.roi
  pyRound 1 (100 * (0.4 * pnl_score + 0.3 * win_rate_score
    + 0.2 * volume_score + 0.1 * roi))

/-- One element of the raw_metrics input of process_grades: the wallet
address and its metrics record (wallet, pnl, win_rate, volume). -/
structure RawItem where
  wallet : String
  pnl : ℚ
  win_rate : ℚ
  volume : ℚ
deriving DecidableEq, Repr

/-- A row of the graded output (process_grades.py lines 20-27). -/
structure GradeRow where
  wallet : String
  pnl : ℚ
  win_rate : ℚ
  volume : ℚ
  roi : ℚ
  score : ℚ
deriving DecidableEq, Repr

/-- The body of the loop of process_grades (process_grades.py lines 13-27)
for one raw item: a row is produced only when volume is strictly positive
(checked before scoring) and pnl is strictly positive (checked after). -/
def gradeOf (item : RawItem) : Option GradeRow :=
  if 0 < item.volume then
    let roi := if 0 < item.volume then item.pnl / item.volume else 0
    let score := score_user ⟨item.pnl, item.win_rate, item.volume, roi⟩
    if 0 < item.pnl then
      some ⟨item.wallet, pyRound 2 item.pnl, pyRound 4 item.win_rate,
        pyRound 2 item.volume, pyRound 4 roi, score⟩
    else none
  else none

/-- process_grades (process_grades.py lines 11-34): the rows written to
grades.csv, in input order. -/
def process_grades (raw : List RawItem) : List GradeRow :=
  raw.filterMap gradeOf

/-- Stable insertion into a score-descending list: the incoming row goes in
front of the first row whose score is not larger (so rows with equal score
keep their original relative order). -/
def insertDesc (x : GradeRow) : List GradeRow → List GradeRow
  | [] => [x]
  | y :: t => if y.score ≤ x.score then x :: y :: t else y :: insertDesc x t

/-- Stable sort by score descending, modelling the builtin stable sorted()
with a reversed key (process_grades.py line 35). -/
def sortDesc : List GradeRow → List GradeRow
  | [] => []
  | h :: t => insertDesc h (sortDesc t)

/-- The rows written to grades_sorted.csv (process_grades.py lines 35-40). -/
def process_grades_sorted (raw : List RawItem) : List GradeRow :=
  sortDesc (process_grades raw)

/-! ### grade_users.py - wallet grader -/

/-- A python runtime error raised while consuming a query result. -/
inductive PyErr where
  | typeError
  | keyError
deriving DecidableEq, Repr

/-- A JSON value appearing in an amount field of a subgraph record: either
a single numeric-string amount or a list of numeric-string amounts (the
amountsAdded shape of fpmmFundingAdditions). -/
inductive PyVal where
  | num (q : ℚ)
  | arr (elems : List ℚ)
deriving DecidableEq, Repr

/-- A record returned by the subgraph: named fields with values. -/
abbrev Item : Type := List (String × PyVal)

/-- Dict lookup item[f]; none models a KeyError. -/
def getField (it : Item) (f : String) : Option PyVal :=
  (it.find? (fun p => decide (p.1 = f))).map (fun p => p.2)

/-- float(v): succeeds on a numeric value, raises TypeError on a list
(grade_users.py line 128 applied to a list-valued field). -/
def pyFloat : PyVal → Except PyErr ℚ
  | .num q => .ok q
  | .arr _ => .error .typeError

/-- sum(float(item[f]) for f in fields), the inner sum of the else branch
(grade_users.py line 128). -/
def sumFields (it : Item) : List String → Except PyErr ℚ
  | [] => .ok 0
  | f :: fs =>
    match getField it f with
    | none => .error .keyError
    | some v =>
      match pyFloat v with
      | .error e => .error e
      | .ok q =>
        match sumFields it fs with
        | .error e => .error e
        | .ok s => .ok (q + s)

/-- sum(float(a) for a in item[amountsAdded]), the inner sum of the then
branch (grade_users.py line 126): iterating a non-list raises TypeError. -/
def sumNested (it : Item) : Except PyErr ℚ :=
  match getField it "amountsAdded" with
  | none => .error .keyError
  | some (.num _) => .error .typeError
  | some (.arr l) => .ok (l.foldl (fun a b => a + b) 0)

/-- Sum a per-item computation over one result page. -/
def sumItems (g : Item → Except PyErr ℚ) : List Item → Except PyErr ℚ
  | [] => .ok 0
  | it :: its =>
    match g it with
    | .error e => .error e
    | .ok q =>
      match sumItems g its with
      | .error e => .error e
      | .ok s => .ok (q + s)

/-- The amount_fields argument: a single field name or a list of names. -/
abbrev AmountFields : Type := String ⊕ List String

/-- The wrap at grade_users.py lines 104-105: a bare string is replaced by
the one-element list holding it before the loop starts. -/
def wrapFields : AmountFields → AmountFields
  | .inl s => .inr [s]
  | .inr l => .inr l

/-- The guard at grade_users.py line 125: comparing the current
amount_fields value with the string amountsAdded (a list never equals a
string). -/
def eqStrAmountsAdded : AmountFields → Bool
  | .inl s => decide (s = "amountsAdded")
  | .inr _ => false

/-- Iterating amount_fields in the else branch: iterating a string yields
its characters, a list yields its elements. -/
def fieldsOf : AmountFields → List String
  | .inl s => s.toList.map (fun c => String.mk [c])
  | .inr l => l

/-- max_pages = 10 (grade_users.py line 109). -/
def MAX_PAGES : Nat := 10

/-- One iteration body of the paging loop of query_additional_volume
(grade_users.py lines 122-130): the page sum, divided by 1e6, added to the
running total. -/
def pageSum (af : AmountFields) (items : List Item) : Except PyErr ℚ :=
  if eqStrAmountsAdded af then sumItems sumNested items
  else sumItems (fun it => sumFields it (fieldsOf af)) items

/-- The paging loop of query_additional_volume (grade_users.py lines
110-130): pages is the sequence of result pages the server returns for
successive skip values; the loop stops at an empty page or after
MAX_PAGES pages; a python exception inside the loop propagates. -/
def qavLoop (af : AmountFields) : Nat → List (List Item) → ℚ → Except PyErr ℚ
  | 0, _, total => .ok total
  | _ + 1, [], total => .ok total
  | fuel + 1, items :: rest, total =>
    if items.isEmpty then .ok total
    else
      match pageSum af items with
      | .error e => .error e
      | .ok s => qavLoop af fuel rest (total + s / 1000000)

/-- query_additional_volume (grade_users.py lines 103-131), abstracted over
the transport: the amount_fields argument and the successive result pages
determine the returned total (or the propagated exception). -/
def query_additional_volume (af : AmountFields) (pages : List (List Item)) :
    Except PyErr ℚ :=
  qavLoop (wrapFields af) MAX_PAGES pages 0

/-- The records of the pnl/settlement query for one wallet: the split
amounts, the merge amounts and the redemption payouts, as raw integer
amounts (grade_users.py lines 68-93). -/
structure PnlQueryResult where
  splits : List ℚ
  merges : List ℚ
  redemptions : List ℚ
deriving DecidableEq, Repr

/-- The metrics record produced by query_user_pnl. -/
structure UserMetrics where
  pnl : ℚ
  win_rate : ℚ
  volume : ℚ
deriving DecidableEq, Repr

/-- query_user_pnl (grade_users.py lines 68-101): on a successful query,
pnl = (payouts + merges - splits)/1e6, volume = (splits + merges)/1e6,
win_rate = positive payouts / payout count (0 with no redemptions); any
exception is caught and the zero metrics record is returned. -/
def query_user_pnl (result : Except PyErr PnlQueryResult) : UserMetrics :=
  match result with
  | .error _ => ⟨0, 0, 0⟩
  | .ok r =>
    let pnl := (r.redemptions.foldl (fun a b => a + b) 0
      + r.merges.foldl (fun a b => a + b) 0
      - r.splits.foldl (fun a b => a + b) 0) / 1000000
    let volume := (r.splits.foldl (fun a b => a + b) 0
      + r.merges.foldl (fun a b => a + b) 0) / 1000000
    let wins := (r.redemptions.filter (fun p => decide (0 < p))).length
    let win_rate := if r.redemptions.isEmpty then 0
      else (wins : ℚ) / r.redemptions.length
    ⟨pnl, win_rate, volume⟩

/-- The per-wallet assembly in main (grade_users.py lines 158-164): the
pnl metrics with the two auxiliary volumes added into the volume field,
as handed to process_grades. -/
def walletRawItem (wallet : String) (result : Except PyErr PnlQueryResult)
    (activity_vol fpmm_vol : ℚ) : RawItem :=
  let m := query_user_pnl result
  ⟨wallet, m.pnl, m.win_rate, m.volume + activity_vol + fpmm_vol⟩

/-! ### Helper lemmas -/

lemma getLastD_mem {α : Type} (l : List α) (d : α) (h : l ≠ []) :
    l.getLastD d ∈ l := by
  rw [List.getLastD_eq_getLast?, List.getLast?_eq_getLast l h]
  exact List.getLast_mem h

lemma freshFilter_ne_nil (since : Int) (batch : List Trade) (hne : batch ≠ [])
    (hold : since < oldestTs batch) : freshFilter since batch ≠ [] := by
  intro hfilt
  rw [freshFilter, List.filter_eq_nil_iff] at hfilt
  have hmem := getLastD_mem batch dTrade hne
  have := hfilt _ hmem
  simp only [decide_eq_true_eq] at this
  exact this hold

lemma roundHalfEven_ge_floor (x : ℚ) : ⌊x⌋ ≤ roundHalfEven x := by
  unfold roundHalfEven
  split_ifs <;> omega

lemma roundHalfEven_le_ceil (x : ℚ) : roundHalfEven x ≤ ⌈x⌉ := by
  have hfc := Int.floor_le_ceil x
  unfold roundHalfEven
  split_ifs with h1 h2 h3
  · exact hfc
  · have hx : (⌊x⌋ : ℚ) < x := by linarith
    have := Int.lt_ceil.mpr hx
    omega
  · exact hfc
  · have hx : (⌊x⌋ : ℚ) < x := by linarith
    have := Int.lt_ceil.mpr hx
    omega

lemma pyRound_nonneg (n : Nat) (x : ℚ) (h : 0 ≤ x) : 0 ≤ pyRound n x := by
  unfold pyRound
  have h10 : (0 : ℚ) ≤ 10 ^ n * x := by positivity
  have hf : (0 : ℤ) ≤ ⌊(10 : ℚ) ^ n * x⌋ := Int.floor_nonneg.mpr h10
  have hr : (0 : ℤ) ≤ roundHalfEven ((10 : ℚ) ^ n * x) :=
    le_trans hf (roundHalfEven_ge_floor _)
  have hc : (0 : ℚ) ≤ (roundHalfEven ((10 : ℚ) ^ n * x) : ℚ) := by exact_mod_cast hr
  positivity

lemma pyRound_le_int (n : Nat) (x : ℚ) (B : ℤ) (h : x ≤ B) : pyRound n x ≤ B := by
  unfold pyRound
  have hpos : (0 : ℚ) < 10 ^ n := by positivity
  have h1 : (10 : ℚ) ^ n * x ≤ ((10 ^ n * B : ℤ) : ℚ) := by
    push_cast
    exact mul_le_mul_of_nonneg_left h (by positivity)
  have h2 : ⌈(10 : ℚ) ^ n * x⌉ ≤ 10 ^ n * B := Int.ceil_le.mpr h1
  have h3 : roundHalfEven ((10 : ℚ) ^ n * x) ≤ 10 ^ n * B :=
    le_trans (roundHalfEven_le_ceil _) h2
  rw [div_le_iff₀ hpos]
  calc (roundHalfEven ((10 : ℚ) ^ n * x) : ℚ) ≤ ((10 ^ n * B : ℤ) : ℚ) := by
        exact_mod_cast h3
    _ = (B : ℚ) * 10 ^ n := by push_cast; ring

/-! ### Claims -/

/-- C1: the code at the failing input. With checkpoint 100 persisted and
the first page request answered by HTTP 500 (pagination truncated), the
run completing at wall-clock time 200 still persists 200 to
last_check.txt: the watermark is advanced past the failed window instead
of being kept at 100. -/
theorem C1_watermark_advanced_on_error :
    (job ⟨∅, 100⟩ [.err 500] 200).lastTs = 200 ∧ (200 : Int) ≠ 100 := by
  decide

/-- C2 counterexample: given three consecutive 429 responses followed by a
200, fetch_trades_since issues exactly one HTTP request - not four - and
returns no trades rather than the successful page. -/
theorem C2_counterexample :
    fetch_trades_since 0 [.err 429, .err 429, .err 429, .ok [⟨5, some "w"⟩]]
        = ([], 1) ∧
      (fetch_trades_since 0
        [.err 429, .err 429, .err 429, .ok [⟨5, some "w"⟩]]).2 ≠ 4 := by
  decide

/-- C2 amended: a page request answered with any non-200 status (429
included) is never retried: exactly one HTTP attempt is made for it,
pagination stops there, and no further trades are returned. -/
theorem C2_no_retry_on_429 (since : Int) (c : Nat) (rest : List Resp) :
    fetch_trades_since since (.err c :: rest) = ([], 1) := rfl

/-- C3 counterexample: the code clamps volume/100000 only from above, so
for a negative volume the code score differs from the claimed
two-sided-clamp formula (-40 against 0). -/
theorem C3_counterexample :
    score_user ⟨0, 0, -200000, 0⟩ = -40 ∧
    score_claimB ⟨0, 0, -200000, 0⟩ = 0 := by
  constructor <;>
    norm_num [score_user, score_claimB, pyRound, roundHalfEven, min_def, max_def]

/-- C3 amended: for non-negative volume the Variant B score equals
round(100*(0.4*clamp(pnl/10000) + 0.3*win_rate + 0.2*clamp(volume/100000)
+ 0.1*roi), 1) with roi unclamped; in general the code caps volume_score
only from above, so the claimed formula holds exactly when volume is not
negative. -/
theorem C3_variantB_formula (m : Metrics) (h : 0 ≤ m.volume) :
    score_user m = score_claimB m := by
  have hv : (0 : ℚ) ≤ m.volume / 100000 := by positivity
  simp only [score_user, score_claimB]
  rw [max_eq_right hv]

/-- C3 witness: the example metrics record satisfies the hypothesis and
scores 22.2 under both the code and the claimed formula. -/
theorem C3_variantB_formula_witness :
    score_user ⟨500, 0.5, 1000, 0.5⟩ = score_claimB ⟨500, 0.5, 1000, 0.5⟩ ∧
    score_user ⟨500, 0.5, 1000, 0.5⟩ = 22.2 :=
  ⟨C3_variantB_formula ⟨500, 0.5, 1000, 0.5⟩ (by norm_num),
    by norm_num [score_user, pyRound, roundHalfEven, min_def, max_def]⟩

/-- C4 counterexample: with win_rate inside [0,1] but roi = 100, the score
is 1000, outside [0,100] (roi enters the sum unclamped). -/
theorem C4_counterexample :
    score_user ⟨0, 0, 0, 100⟩ = 1000 ∧ 100 < score_user ⟨0, 0, 0, 100⟩ := by
  constructor <;>
    norm_num [score_user, pyRound, roundHalfEven, min_def, max_def]

/-- C4 amended: the score lies in [0,100] when, besides win_rate in [0,1],
the volume is non-negative and roi lies in [0,1]; without those extra
bounds (any real volume or roi) the score can leave the interval. -/
theorem C4_score_bounded (m : Metrics) (hw0 : 0 ≤ m.win_rate)
    (hw1 : m.win_rate ≤ 1) (hv : 0 ≤ m.volume) (hr0 : 0 ≤ m.roi)
    (hr1 : m.roi ≤ 1) : 0 ≤ score_user m ∧ score_user m ≤ 100 := by
  simp only [score_user]
  have hp0 : (0 : ℚ) ≤ min 1 (max 0 (m.pnl / 10000)) :=
    le_min (by norm_num) (le_max_left 0 _)
  have hp1 : min 1 (max 0 (m.pnl / 10000)) ≤ 1 := min_le_left _ _
  have hv0 : (0 : ℚ) ≤ min 1 (m.volume / 100000) :=
    le_min (by norm_num) (by positivity)
  have hv1 : min 1 (m.volume / 100000) ≤ 1 := min_le_left _ _
  constructor
  · apply pyRound_nonneg
    nlinarith [hp0, hv0, hw0, hr0]
  · have h100 : 100 * ((0.4 : ℚ) * min 1 (max 0 (m.pnl / 10000))
        + 0.3 * m.win_rate + 0.2 * min 1 (m.volume / 100000) + 0.1 * m.roi)
        ≤ ((100 : ℤ) : ℚ) := by
      push_cast
      nlinarith [hp1, hv1, hw1, hr1]
    have := pyRound_le_int 1 _ 100 h100
    exact_mod_cast this

/-- C4 witness: the example metrics record satisfies all the hypotheses
and its score indeed lies in [0,100]. -/
theorem C4_score_bounded_witness :
    0 ≤ score_user ⟨500, 0.5, 1000, 0.5⟩ ∧
    score_user ⟨500, 0.5, 1000, 0.5⟩ ≤ 100 :=
  C4_score_bounded ⟨500, 0.5, 1000, 0.5⟩ (by norm_num) (by norm_num)
    (by norm_num) (by norm_num) (by norm_num)

lemma gradeOf_pos (item : RawItem) (g : GradeRow) (h : gradeOf item = some g) :
    0 < item.volume ∧ 0 < item.pnl := by
  simp only [gradeOf] at h
  split_ifs at h with h1 h2
  exact ⟨h1, h2⟩

lemma gradeOf_some (item : RawItem) (hv : 0 < item.volume)
    (hp : 0 < item.pnl) :
    gradeOf item = some ⟨item.wallet, pyRound 2 item.pnl,
      pyRound 4 item.win_rate, pyRound 2 item.volume,
      pyRound 4 (item.pnl / item.volume),
      score_user ⟨item.pnl, item.win_rate, item.volume,
        item.pnl / item.volume⟩⟩ := by
  simp only [gradeOf, if_pos hv, if_pos hp]

/-- C5: a row appears in the graded output exactly for raw items with
strictly positive volume (checked before scoring) and strictly positive
pnl (checked after scoring): every output row comes from such an item,
and every such item contributes a row carrying its wallet. -/
theorem C5_output_filtering (raw : List RawItem) :
    (∀ g ∈ process_grades raw,
      ∃ item ∈ raw, 0 < item.volume ∧ 0 < item.pnl ∧ gradeOf item = some g) ∧
    (∀ item ∈ raw, 0 < item.volume → 0 < item.pnl →
      ∃ g ∈ process_grades raw, g.wallet = item.wallet) := by
  constructor
  · intro g hg
    rw [process_grades, List.mem_filterMap] at hg
    obtain ⟨item, hmem, hsome⟩ := hg
    obtain ⟨hv, hp⟩ := gradeOf_pos item g hsome
    exact ⟨item, hmem, hv, hp, hsome⟩
  · intro item hmem hv hp
    exact ⟨_, List.mem_filterMap.mpr ⟨item, hmem, gradeOf_some item hv hp⟩, rfl⟩

/-- C5 witness: a raw item with volume 10 and pnl 5 contributes a row with
its wallet to the graded output. -/
theorem C5_output_filtering_witness :
    ∃ g ∈ process_grades [⟨"a", 5, 0.5, 10⟩], g.wallet = "a" :=
  (C5_output_filtering [⟨"a", 5, 0.5, 10⟩]).2 ⟨"a", 5, 0.5, 10⟩ (by simp)
    (by norm_num) (by norm_num)

/-- C6 counterexample: the claimed scenario cannot occur: there is no
checkpoint and full page whose oldest record is newer than the checkpoint
yet whose fresh-filtered contribution is empty (the oldest record itself
always survives the filter). -/
theorem C6_counterexample :
    (∃ (since : Int) (batch : List Trade), batch.length = FETCH_LIMIT ∧
      since < oldestTs batch ∧ freshFilter since batch = []) ↔ False := by
  constructor
  · rintro ⟨since, batch, hlen, hold, hfilt⟩
    have hne : batch ≠ [] := by
      intro hb
      rw [hb] at hlen
      simp [FETCH_LIMIT] at hlen
    exact freshFilter_ne_nil since batch hne hold hfilt
  · intro hf
    exact hf.elim

/-- C6 amended: only records strictly newer than the checkpoint are added,
and the stop decision is made on the unfiltered page (its last record and
its raw length); a full page whose oldest record is newer than the
checkpoint makes pagination continue and necessarily contributes at least
one fresh record, so a zero-contribution page never continues pagination. -/
theorem C6_filter_vs_stop (since : Int) (t : Trade) (ts : List Trade)
    (rest : List Resp) (hlen : (t :: ts).length = FETCH_LIMIT)
    (hold : since < oldestTs (t :: ts)) :
    fetch_trades_since since (.ok (t :: ts) :: rest) =
      (freshFilter since (t :: ts) ++ (fetch_trades_since since rest).1,
        (fetch_trades_since since rest).2 + 1) ∧
    freshFilter since (t :: ts) ≠ [] := by
  have hcond : ¬(oldestTs (t :: ts) ≤ since ∨
      (t :: ts).length < FETCH_LIMIT) := by
    push_neg
    exact ⟨hold, le_of_eq hlen.symm⟩
  constructor
  · rw [fetch_trades_since, if_neg hcond]
  · exact freshFilter_ne_nil since (t :: ts) (List.cons_ne_nil t ts) hold

set_option maxRecDepth 20000 in
/-- C6 witness: a concrete full page of 500 records with timestamp 5 and
checkpoint 0 continues pagination and contributes fresh records. -/
theorem C6_filter_vs_stop_witness :
    fetch_trades_since 0
        [.ok (⟨5, some "w"⟩ :: List.replicate 499 ⟨5, some "w"⟩)] =
      (freshFilter 0 (⟨5, some "w"⟩ :: List.replicate 499 ⟨5, some "w"⟩)
          ++ (fetch_trades_since 0 []).1,
        (fetch_trades_since 0 []).2 + 1) ∧
    freshFilter 0 (⟨5, some "w"⟩ :: List.replicate 499 ⟨5, some "w"⟩) ≠ [] :=
  C6_filter_vs_stop 0 ⟨5, some "w"⟩ (List.replicate 499 ⟨5, some "w"⟩) []
    (by simp [FETCH_LIMIT]) (by decide)

set_option maxRecDepth 20000 in
/-- C7 counterexample: a feed of one full page (500 records, timestamp 10)
followed by one short page, read with checkpoint 20: the staleness stop
predicate fires on the first page, so only 1 page is fetched, not 1+1. -/
theorem C7_counterexample :
    (List.replicate 500 (⟨10, some "w"⟩ : Trade)).length = FETCH_LIMIT ∧
    isShortPage (.ok [⟨10, some "w"⟩]) = true ∧
    (fetch_trades_since 20 [.ok (List.replicate 500 ⟨10, some "w"⟩),
        .ok [⟨10, some "w"⟩]]).2 = 1 ∧
    (fetch_trades_since 20 [.ok (List.replicate 500 ⟨10, some "w"⟩),
        .ok [⟨10, some "w"⟩]]).2 ≠ 1 + 1 := by
  decide

/-- C7 amended: given a feed of N full pages each of whose oldest record
is strictly newer than the checkpoint (so the staleness predicate never
fires), followed by one short page, pagination fetches exactly N+1 pages;
if the staleness predicate fires on some full page, pagination can stop
earlier. -/
theorem C7_page_count (since : Int) (pages : List Resp) (last : Resp)
    (h1 : ∀ p ∈ pages, fullFresh since p = true)
    (h2 : isShortPage last = true) :
    (fetch_trades_since since (pages ++ [last])).2 = pages.length + 1 := by
  induction pages with
  | nil =>
    simp only [List.nil_append, List.length_nil]
    cases last with
    | err c => simp [isShortPage] at h2
    | ok batch =>
      cases batch with
      | nil => rfl
      | cons t ts =>
        have hshort : (t :: ts).length < FETCH_LIMIT := by
          simpa [isShortPage] using h2
        rw [fetch_trades_since, if_pos (Or.inr hshort)]
  | cons p ps ih =>
    have hp := h1 p (List.mem_cons_self p ps)
    have hps : ∀ q ∈ ps, fullFresh since q = true :=
      fun q hq => h1 q (List.mem_cons_of_mem p hq)
    cases p with
    | err c => simp [fullFresh] at hp
    | ok batch =>
      cases batch with
      | nil => simp [fullFresh, FETCH_LIMIT] at hp
      | cons t ts =>
        simp only [fullFresh, Bool.and_eq_true, decide_eq_true_eq] at hp
        obtain ⟨hlen, hold⟩ := hp
        have hcond : ¬(oldestTs (t :: ts) ≤ since ∨
            (t :: ts).length < FETCH_LIMIT) := by
          push_neg
          exact ⟨hold, le_of_eq hlen.symm⟩
        rw [List.cons_append, fetch_trades_since, if_neg hcond]
        simp only [List.length_cons]
        rw [ih hps]

set_option maxRecDepth 20000 in
/-- C7 witness: one full fresh page followed by a one-record page, read
with checkpoint 0: exactly 2 pages are fetched. -/
theorem C7_page_count_witness :
    (fetch_trades_since 0
        ([.ok (⟨5, some "w"⟩ :: List.replicate 499 ⟨5, some "w"⟩)]
          ++ [.ok [⟨5, some "w"⟩]])).2 = 1 + 1 :=
  C7_page_count 0 [.ok (⟨5, some "w"⟩ :: List.replicate 499 ⟨5, some "w"⟩)]
    (.ok [⟨5, some "w"⟩]) (by decide) (by decide)

lemma job_seen_subset (st : JobState) (resps : List Resp) (now : Int) :
    st.seenUsers ⊆ (job st resps now).seenUsers := by
  simp only [job]
  split_ifs with h
  · exact subset_rfl
  · exact Finset.subset_union_left

lemma job_lastTs (st : JobState) (resps : List Resp) (now : Int) :
    (job st resps now).lastTs = now := rfl

lemma job_empty_seen (st : JobState) (now : Int) :
    (job st [] now).seenUsers = st.seenUsers := by
  have hempty : extract_addresses (fetch_trades_since st.lastTs []).1
      \ st.seenUsers = ∅ := by
    simp [fetch_trades_since, extract_addresses]
  simp [job, hempty]

lemma runJobs_mono (runs : List (List Resp × Int)) :
    ∀ st : JobState, clockOK st.lastTs runs = true →
      st.seenUsers ⊆ (runJobs st runs).seenUsers ∧
      st.lastTs ≤ (runJobs st runs).lastTs := by
  induction runs with
  | nil =>
    intro st _
    exact ⟨subset_rfl, le_refl _⟩
  | cons run more ih =>
    intro st h
    obtain ⟨r, n⟩ := run
    simp only [clockOK, Bool.and_eq_true, decide_eq_true_eq] at h
    obtain ⟨h1, h2⟩ := h
    have h2' : clockOK (job st r n).lastTs more = true := by
      rw [job_lastTs]
      exact h2
    have IH := ih (job st r n) h2'
    simp only [runJobs]
    refine ⟨subset_trans (job_seen_subset st r n) IH.1, ?_⟩
    calc st.lastTs ≤ n := h1
      _ = (job st r n).lastTs := (job_lastTs st r n).symm
      _ ≤ (runJobs (job st r n) more).lastTs := IH.2

/-- C8: across any sequence of runs whose completion clock never goes
backwards, the persisted wallet set only grows and the persisted
checkpoint timestamp is monotonically non-decreasing; moreover a run on
any batch of trades persists a superset of what the same run on the empty
batch persists. -/
theorem C8_monotone_growth (st : JobState) (runs : List (List Resp × Int))
    (resps : List Resp) (now : Int) (h : clockOK st.lastTs runs = true) :
    st.seenUsers ⊆ (runJobs st runs).seenUsers ∧
    st.lastTs ≤ (runJobs st runs).lastTs ∧
    (job st [] now).seenUsers ⊆ (job st resps now).seenUsers := by
  refine ⟨(runJobs_mono runs st h).1, (runJobs_mono runs st h).2, ?_⟩
  rw [job_empty_seen]
  exact job_seen_subset st resps now

/-- C8 witness: a concrete two-run sequence with a monotone clock. -/
theorem C8_monotone_growth_witness :
    (⟨∅, 0⟩ : JobState).seenUsers ⊆
      (runJobs ⟨∅, 0⟩ [([.ok [⟨5, some "w"⟩]], 7), ([.err 500], 9)]).seenUsers ∧
    (⟨∅, 0⟩ : JobState).lastTs ≤
      (runJobs ⟨∅, 0⟩ [([.ok [⟨5, some "w"⟩]], 7), ([.err 500], 9)]).lastTs ∧
    (job ⟨∅, 0⟩ [] 3).seenUsers ⊆ (job ⟨∅, 0⟩ [] 3).seenUsers :=
  C8_monotone_growth ⟨∅, 0⟩ [([.ok [⟨5, some "w"⟩]], 7), ([.err 500], 9)] [] 3
    (by decide)

lemma qavLoop_error (af : AmountFields) (fuel : Nat) (items : List Item)
    (rest : List (List Item)) (total : ℚ) (hne : items ≠ [])
    (he : pageSum af items = .error .typeError) :
    qavLoop af (fuel + 1) (items :: rest) total = .error .typeError := by
  cases items with
  | nil => exact absurd rfl hne
  | cons it its =>
    simp only [qavLoop, List.isEmpty_cons, Bool.false_eq_true, if_false]
    rw [he]

/-- C9: amount_fields is wrapped into a list before the loop, so the guard
comparing it with the string amountsAdded can never be true; consequently
a call passing the string amountsAdded that receives a non-empty page of
records whose amountsAdded field is a list takes the else branch, applies
float() to the list value, and raises TypeError instead of summing the
nested amounts. -/
theorem C9_unreachable_branch (af : AmountFields) (it : Item)
    (its : List Item) (rest : List (List Item)) (l : List ℚ)
    (h : getField it "amountsAdded" = some (.arr l)) :
    eqStrAmountsAdded (wrapFields af) = false ∧
    query_additional_volume (.inl "amountsAdded") ((it :: its) :: rest) =
      .error .typeError := by
  constructor
  · cases af <;> rfl
  · rw [query_additional_volume]
    have hw : wrapFields (.inl "amountsAdded")
        = (.inr ["amountsAdded"] : AmountFields) := rfl
    have hm : MAX_PAGES = 9 + 1 := rfl
    rw [hw, hm]
    apply qavLoop_error _ _ _ _ _ (List.cons_ne_nil it its)
    simp [pageSum, eqStrAmountsAdded, fieldsOf, sumItems, sumFields, h, pyFloat]

/-- C9 witness: a concrete one-page result whose single record has a
list-valued amountsAdded field. -/
theorem C9_unreachable_branch_witness :
    eqStrAmountsAdded (wrapFields (.inr ["x"])) = false ∧
    query_additional_volume (.inl "amountsAdded")
        [[[("amountsAdded", PyVal.arr [1, 2])]]] = .error .typeError :=
  C9_unreachable_branch (.inr ["x"]) [("amountsAdded", PyVal.arr [1, 2])]
    [] [] [1, 2] rfl

/-- C10: a failed pnl/settlement query is caught and turned into the zero
metrics record; if the auxiliary volumes do not make the total volume
positive, the wallet is absent from both grades.csv and
grades_sorted.csv (both artifacts are unchanged by its presence in the
input). -/
theorem C10_failed_query_absent (w : String) (e : PyErr) (av fv : ℚ)
    (pre post : List RawItem) (h : av + fv ≤ 0) :
    query_user_pnl (.error e) = ⟨0, 0, 0⟩ ∧
    gradeOf (walletRawItem w (.error e) av fv) = none ∧
    process_grades (pre ++ walletRawItem w (.error e) av fv :: post) =
      process_grades (pre ++ post) ∧
    process_grades_sorted (pre ++ walletRawItem w (.error e) av fv :: post) =
      process_grades_sorted (pre ++ post) := by
  have hvol : (walletRawItem w (.error e) av fv).volume = 0 + av + fv := rfl
  have hnotpos : ¬ 0 < (walletRawItem w (.error e) av fv).volume := by
    rw [hvol]
    linarith
  have hnone : gradeOf (walletRawItem w (.error e) av fv) = none := by
    simp only [gradeOf, if_neg hnotpos]
  have h3 : process_grades (pre ++ walletRawItem w (.error e) av fv :: post) =
      process_grades (pre ++ post) := by
    rw [process_grades, process_grades, List.filterMap_append,
      List.filterMap_append, List.filterMap_cons_none hnone]
  exact ⟨rfl, hnone, h3, by simp only [process_grades_sorted, h3]⟩

/-- C10 witness: a wallet whose query failed and whose auxiliary volumes
are zero leaves both artifacts unchanged. -/
theorem C10_failed_query_absent_witness :
    query_user_pnl (.error .typeError) = ⟨0, 0, 0⟩ ∧
    gradeOf (walletRawItem "x" (.error .typeError) 0 0) = none ∧
    process_grades ([] ++ walletRawItem "x" (.error .typeError) 0 0 :: []) =
      process_grades ([] ++ []) ∧
    process_grades_sorted
        ([] ++ walletRawItem "x" (.error .typeError) 0 0 :: []) =
      process_grades_sorted ([] ++ []) :=
  C10_failed_query_absent "x" .typeError 0 0 [] [] (by norm_num)

end Poly
